import Mathlib

/-!
Verification of the quoalise client/server core: a shallow embedding of
`src/quoalise/xmpp_utils.py`, `client.py`, `server.py` and `utils.py`,
with theorems about the session-start wait, the reconnect handler, the
two-phase command state machine, error conversion, request building and
the ISO date helpers.
-/

namespace Quoalise

/-- Domain errors. Modelled from the spec: the module `errors.py` defining
`Error, NotAuthorized, ServiceUnavailable, BadRequest, UpstreamError,
ConnectionFailed` is not under `src/`; the spec describes each as a tagged
variant carrying an optional human-readable message (UpstreamError also
carries issuer and code). -/
inductive DomainError
  | notAuthorized (msg : String)
  | serviceUnavailable (msg : String)
  | badRequest (msg : String)
  | upstreamError (issuer code msg : String)
  | connectionFailed (msg : String)
  deriving DecidableEq, Repr

/-! ## `xmpp_utils._wait_for_session_start`

The function registers four disposable event handlers, awaits a
single-assignment future with a 10-second bound, raises the stored
`ConnectionFailed` when a failure handler resolved the future, and in a
`finally` block deregisters all four handlers.  We embed the handler state
(future slot, error slot, registered-handler set) and dispatch of incoming
transport events, and the outcome of the whole call. -/

/-- Names of the four transport events `_wait_for_session_start` listens to,
plus an unrelated event (any other name the transport may emit). -/
inductive EventName
  | session_start
  | session_end
  | connection_failed
  | failed_auth
  | unrelated
  deriving DecidableEq, Repr

/-- A transport event: its name plus the `event_data` payload string
(only the `connection_failed` handler reads it, via an f-string). -/
structure XmppEvent where
  name : EventName
  eventData : String
  deriving DecidableEq, Repr

/-- The local state of one `_wait_for_session_start` call:
`session_state` is an `asyncio.Future[bool]` (`none` = pending),
`error` is the nonlocal error slot, `registered` the event names that
currently have one of the four handlers attached. -/
structure WaitState where
  futureResult : Option Bool
  error : Option String
  registered : List EventName
  deriving DecidableEq, Repr

/-- The handler bodies from `xmpp_utils.py` lines 23-43: each first checks
`session_state.done()` and otherwise resolves the future, the three failure
handlers also storing a `ConnectionFailed` message in the nonlocal slot. -/
def runHandler (e : XmppEvent) (st : WaitState) : WaitState :=
  if (st.futureResult).isSome then st
  else match e.name with
    | .session_start => { st with futureResult := some true }
    | .session_end =>
        { st with error := some "XMPP server ended the session",
                  futureResult := some false }
    | .connection_failed =>
        { st with error := some ("XMPP server is not reachable, " ++ e.eventData),
                  futureResult := some false }
    | .failed_auth =>
        { st with error := some "Invalid username or password",
                  futureResult := some false }
    | .unrelated => st

/-- Transport event dispatch: a handler runs only while registered, and the
handlers were added with `disposable=True`, so a handler is removed right
after it fires. An event whose name has no registered handler is ignored. -/
def dispatch (st : WaitState) (e : XmppEvent) : WaitState :=
  if e.name ∈ st.registered then
    { runHandler e st with registered := st.registered.erase e.name }
  else st

/-- Initial state: all four handlers registered (lines 45-58), future
pending, error slot `None`. -/
def initWaitState : WaitState :=
  { futureResult := none, error := none,
    registered := [.session_start, .session_end, .connection_failed, .failed_auth] }

/-- Outcome of the `await`-and-raise part of `_wait_for_session_start`:
plain return, a raised `ConnectionFailed`, or the raw
`asyncio.TimeoutError` that `asyncio.wait_for` raises when the 10-second
bound elapses (the code has no `except` clause converting it). -/
inductive WaitOutcome
  | success
  | connFailed (msg : String)
  | timeoutError
  deriving DecidableEq, Repr

/-- `_wait_for_session_start`, as a function of the list of transport
events delivered before the 10-second deadline: the events are dispatched
in order; `asyncio.wait_for(session_state, 10)` returns when the future
was resolved and raises `asyncio.TimeoutError` otherwise; then
`if error: raise error`; the `finally` block deregisters all four
handlers on every exit path. Returns the outcome and the final state. -/
def wait_for_session_start (events : List XmppEvent) : WaitOutcome × WaitState :=
  let st := events.foldl dispatch initWaitState
  let outcome :=
    match st.futureResult with
    | none => WaitOutcome.timeoutError
    | some _ =>
      match st.error with
      | some msg => WaitOutcome.connFailed msg
      | none => WaitOutcome.success
  (outcome, { st with registered := [] })

/-! ## `client.ClientAsync`: reconnect handler and `disconnect`

`ClientAsync.__init__` registers the coroutine `self.__reconnect` as the
handler of the transport event `"disconnected"`, with the default
`disposable=False`, so the handler stays registered for the life of the
client.  Every delivery of a `"disconnected"` event schedules one run of
the `__reconnect` retry loop; the code has no flag, lock or other guard
around this.  `ClientAsync.disconnect` only calls
`self.xmpp_client.disconnect()`: it does not deregister the handler and
sets no state on the client.  We embed the client as a state machine
driven by these three happenings. -/

/-- One happening observable by the client model: the transport delivers a
`"disconnected"` event, the caller invokes `ClientAsync.disconnect`, or an
in-flight `__reconnect` loop returns (its reconnection succeeded). -/
inductive ClientEvent
  | deliverDisconnected
  | callDisconnect
  | reconnectCompletes
  deriving DecidableEq, Repr

/-- Client state: which event names have a handler registered by the
client, how many `__reconnect` coroutine runs are currently in flight, and
whether the caller has invoked `disconnect`. -/
structure ClientState where
  handlersRegistered : List String
  reconnectLoops : Nat
  disconnectCalled : Bool
  deriving DecidableEq, Repr

/-- State after `ClientAsync.__init__` (client.py lines 73-79): the
`"disconnected"` handler is registered, nothing is in flight. -/
def initClientState : ClientState :=
  { handlersRegistered := ["disconnected"], reconnectLoops := 0,
    disconnectCalled := false }

/-- One step of the client model.  Delivering `"disconnected"` schedules a
run of `__reconnect` whenever the handler is registered — the code checks
nothing else, in particular not whether another run is already in flight.
`disconnect` (client.py lines 259-263) only tears the transport down: it
neither removes the handler nor records anything that would suppress a
later reconnect.  A completing loop just leaves the in-flight set. -/
def stepClient (st : ClientState) : ClientEvent → ClientState
  | .deliverDisconnected =>
      if "disconnected" ∈ st.handlersRegistered then
        { st with reconnectLoops := st.reconnectLoops + 1 }
      else st
  | .callDisconnect => { st with disconnectCalled := true }
  | .reconnectCompletes => { st with reconnectLoops := st.reconnectLoops - 1 }

/-- Run the client model from the freshly constructed client over a list
of happenings. -/
def runClient (events : List ClientEvent) : ClientState :=
  events.foldl stepClient initClientState

/-! ## `client.ClientAsync.get_history`: request building

`get_history` builds an Iq stanza carrying a `get_history` command whose
form holds an `identifier` field, plus a `start_time`/`end_time` field for
each bound given.  A bound whose `tzinfo` is `None` raises `ValueError`
before the command element is built and before `iq.send()` is awaited.
Field values pass through `xml.sax.saxutils.escape`. -/

/-- The slice of a Python `datetime` the client reads: its `isoformat()`
string and whether `tzinfo` is set (`true` = timezone-aware). -/
structure PyDatetime where
  isoformat : String
  tzAware : Bool
  deriving DecidableEq, Repr

/-- `xml.sax.saxutils.escape`: replaces `&`, `<`, `>` by entities. -/
def xmlEscape (s : String) : String :=
  String.mk (s.data.flatMap fun c =>
    if c = '&' then "&amp;".data
    else if c = '<' then "&lt;".data
    else if c = '>' then "&gt;".data
    else [c])

/-- A `<field var=.. type="text-single"><value>..</value></field>` element
of the submitted form. -/
structure Field where
  var : String
  value : String
  deriving DecidableEq, Repr

/-- The request `get_history` sends: the fields of the `jabber:x:data`
submit form inside the `get_history` command element, in document
order. -/
structure HistoryRequest where
  fields : List Field
  deriving DecidableEq, Repr

/-- `ClientAsync.get_history` up to the point where the Iq is sent
(client.py lines 81-136): `.error msg` is a locally raised `ValueError`
(no command element built, no network write), `.ok r` means the request
`r` was built and handed to `iq.send()`. -/
def get_history (identifier : String) (start_time end_time : Option PyDatetime) :
    Except String HistoryRequest :=
  match start_time with
  | some st =>
    if !st.tzAware then
      .error "Naive datetimes are not handled to prevent errors"
    else
      matchEnd identifier [⟨"start_time", xmlEscape st.isoformat⟩] end_time
  | none => matchEnd identifier [] end_time
where
  matchEnd (identifier : String) (startFields : List Field)
      (end_time : Option PyDatetime) : Except String HistoryRequest :=
    match end_time with
    | some et =>
      if !et.tzAware then
        .error "Naive datetimes are not handled to prevent errors"
      else
        .ok ⟨⟨"identifier", xmlEscape identifier⟩ :: startFields ++
             [⟨"end_time", xmlEscape et.isoformat⟩]⟩
    | none => .ok ⟨⟨"identifier", xmlEscape identifier⟩ :: startFields⟩

/-! ## `client.IqErrorConverter` and `server.ErrorToXmppConverter` -/

/-- The slice of a slixmpp `IqError` the converter reads: its `condition`
string, its `text`, and the `{urn:quoalise:0}upstream-error` element found
(or not) in the error stanza, with its `issuer` and `code` attributes. -/
structure IqErr where
  condition : String
  text : String
  upstream : Option (String × String)
  deriving DecidableEq, Repr

/-- An exception escaping the `with IqErrorConverter():` block on the
client side: either exactly a slixmpp `IqError`, or any other exception
(subclasses of `IqError` included, since `__exit__` tests
`ex_type is IqError`), identified here only by a tag. -/
inductive ClientExc
  | iqError (e : IqErr)
  | other (tag : String)
  deriving DecidableEq, Repr

/-- `IqErrorConverter.convert` (client.py lines 43-58): the raised domain
error, or `none` when no branch fires and the function falls through. -/
def iqErrorConvert (e : IqErr) : Option DomainError :=
  if e.condition = "not-authorized" then some (.notAuthorized e.text)
  else if e.condition = "service-unavailable" then some (.serviceUnavailable e.text)
  else if e.condition = "bad-request" then some (.badRequest e.text)
  else if e.condition = "undefined-condition" then
    match e.upstream with
    | some (issuer, code) => some (.upstreamError issuer code e.text)
    | none => none
  else none

/-- What propagates out of the `with IqErrorConverter():` block. -/
inductive ClientExitResult
  | raisesDomain (d : DomainError)
  | passthrough (ex : ClientExc)
  deriving DecidableEq, Repr

/-- `IqErrorConverter.__exit__` (client.py lines 60-69): only an exact
`IqError` is handed to `convert`; when `convert` raises, the domain error
replaces it, otherwise `return False` re-raises the original unchanged. -/
def clientExit (ex : ClientExc) : ClientExitResult :=
  match ex with
  | .iqError e =>
    match iqErrorConvert e with
    | some d => .raisesDomain d
    | none => .passthrough ex
  | .other _ => .passthrough ex

/-- An exception escaping the `with ErrorToXmppConverter():` block on the
server side: exactly `PermissionError`, exactly `ValueError`, or any
other exception identified by a tag (`__exit__` tests `ex_type ==`). -/
inductive ServerExc
  | permissionError (msg : String)
  | valueError (msg : String)
  | other (tag : String)
  deriving DecidableEq, Repr

/-- A slixmpp `XMPPError` as the server converter builds it: condition,
error type (`XMPPError` defaults `etype` to `"cancel"` when not given),
and text. -/
structure XmppWireError where
  condition : String
  etype : String
  text : String
  deriving DecidableEq, Repr

/-- What propagates out of the `with ErrorToXmppConverter():` block. -/
inductive ServerExitResult
  | raisesXmpp (x : XmppWireError)
  | passthrough (ex : ServerExc)
  deriving DecidableEq, Repr

/-- `ErrorToXmppConverter.__exit__` (server.py lines 27-42):
`PermissionError` becomes `not-authorized`, `ValueError` becomes
`bad-request` with `etype="modify"`, anything else re-raises as-is. -/
def serverExit (ex : ServerExc) : ServerExitResult :=
  match ex with
  | .permissionError m => .raisesXmpp ⟨"not-authorized", "cancel", m⟩
  | .valueError m => .raisesXmpp ⟨"bad-request", "modify", m⟩
  | .other t => .passthrough (.other t)

/-! ## `server.CommandHandler`: the two-phase command state machine

`handle_request` receives the inbound iq and the XEP-0050 command
session.  When the command element of the iq has subelements (a payload),
it tail-calls `handle_submit` on the payload stored in the session;
otherwise it renders the variant's form (`make_form` plus `fill_form`),
stores it as `session["payload"]` and sets `session["next"]` to
`handle_submit`.  `handle_submit` builds a result form, runs the
variant's `execute`, stores `[result_form, result_data]` as the payload
and sets `session["next"] = None`. -/

/-- A field of a XEP-0004 data form as the handlers add them. -/
structure FormField where
  var : String
  ftype : String
  label : String
  value : String
  deriving DecidableEq, Repr

/-- A rendered XEP-0004 form: its type attribute, title, and fields. -/
structure XdataForm where
  ftype : String
  title : String
  fields : List FormField
  deriving DecidableEq, Repr

/-- The `session["payload"]` slot over the life of one command session:
nothing yet, the rendered request form, the submission the transport
stored before re-invoking the handler, or the terminal
`[result_form, result_data]` pair. -/
inductive SessionPayload (ρ : Type)
  | empty
  | requestForm (form : XdataForm)
  | submitted (values : List (String × String))
  | result (resultForm : XdataForm) (resultData : Option ρ)
  deriving DecidableEq, Repr

/-- The `session["next"]` continuation slot: `handle_submit` or `None`. -/
inductive Continuation
  | handleSubmit
  deriving DecidableEq, Repr

/-- A XEP-0050 command session as the handlers touch it. -/
structure CmdSession (ρ : Type) where
  payload : SessionPayload ρ
  next : Option Continuation
  requester : String
  deriving DecidableEq, Repr

/-- A command variant, as the abstract base class sees it: the node and
human name passed to `CommandHandler.__init__`, the fields `fill_form`
adds to the blank form, the fields `execute` adds to the result form, and
the data `execute` returns — the latter two as functions of the requester
and the submitted payload. -/
structure CommandHandler (ρ : Type) where
  node : String
  name : String
  formFields : List FormField
  resultFields : String → SessionPayload ρ → List FormField
  executeData : String → SessionPayload ρ → Option ρ

/-- `CommandHandler.handle_submit` (server.py lines 65-81). The result
form's title is the literal `"Get history"` for every variant (the base
class hardcodes it). -/
def handle_submit (h : CommandHandler ρ) (payload : SessionPayload ρ)
    (session : CmdSession ρ) : CmdSession ρ :=
  let resultForm : XdataForm :=
    ⟨"result", "Get history", h.resultFields session.requester payload⟩
  { session with
      next := none,
      payload := .result resultForm (h.executeData session.requester payload) }

/-- `CommandHandler.handle_request` (server.py lines 50-63).
`iqHasPayload` is the test `iq["command"].xml` having subelements. -/
def handle_request (h : CommandHandler ρ) (iqHasPayload : Bool)
    (session : CmdSession ρ) : CmdSession ρ :=
  if iqHasPayload then handle_submit h session.payload session
  else
    { session with
        payload := .requestForm ⟨"form", h.name, h.formFields⟩,
        next := some .handleSubmit }

/-! ## Construction of the command variants

`GetHistoryHandler` is declared `class GetHistoryHandler(CommandHandler)`,
but `Subscribe` and `Unsubscribe` are declared `class Subscribe:` and
`class Unsubscribe:` with no base (server.py lines 195 and 236), so in
each of them `super()` resolves to `object`.  All three `__init__`
methods call `super().__init__(node=..., name=...)`; `object.__init__`
rejects keyword arguments with `TypeError`.  We embed Python's base-class
lookup for exactly these classes. -/

/-- The classes involved in constructing a command variant. -/
inductive PyClass
  | object
  | commandHandlerCls
  | getHistoryHandlerCls
  | subscribeCls
  | unsubscribeCls
  deriving DecidableEq, Repr

/-- The declared base of each class in server.py (`object` when the class
statement lists no base). -/
def pyBase : PyClass → Option PyClass
  | .object => none
  | .commandHandlerCls => some .object
  | .getHistoryHandlerCls => some .commandHandlerCls
  | .subscribeCls => some .object
  | .unsubscribeCls => some .object

/-- Result of constructing a variant instance. -/
inductive ConstructResult
  | ok (node name : String)
  | typeError
  deriving DecidableEq, Repr

/-- The `super().__init__(node=.., name=..)` call each variant's
`__init__` performs: `CommandHandler.__init__` (server.py lines 46-48)
stores the two keyword arguments, while `object.__init__` raises
`TypeError` when handed keyword arguments. -/
def superInit (cls : PyClass) (node name : String) : ConstructResult :=
  match pyBase cls with
  | some .commandHandlerCls => .ok node name
  | _ => .typeError

/-- `GetHistoryHandler()` construction (server.py lines 133-137). -/
def constructGetHistoryHandler : ConstructResult :=
  superInit .getHistoryHandlerCls "get_history" "Get history"

/-- `Subscribe()` construction (server.py lines 196-200). -/
def constructSubscribe : ConstructResult :=
  superInit .subscribeCls "subscribe" "Subscribe"

/-- `Unsubscribe()` construction (server.py lines 237-241). -/
def constructUnsubscribe : ConstructResult :=
  superInit .unsubscribeCls "unsubscribe" "Unsubscribe"

/-! ## `utils.parse_iso_date` and `utils.format_iso_date`

`parse_iso_date` is `datetime.strptime(date_str, "%Y-%m-%d").date()`.
CPython's `_strptime` compiles `%Y` to exactly four digits and `%m`, `%d`
to one or two digits, requires the whole string to match, and validates
the ranges (month 1-12, day within the month, respecting leap years).
`format_iso_date` is `date.strftime("%Y-%m-%d")`, modelled with the
zero-filled rendering documented for `%Y`/`%m`/`%d` (four and two
digits). -/

/-- A Python `datetime.date`: year 1-9999, a valid month and day. -/
structure PyDate where
  year : Nat
  month : Nat
  day : Nat
  deriving DecidableEq, Repr

/-- Gregorian leap year, as `calendar.isleap`. -/
def isLeap (y : Nat) : Bool :=
  (y % 4 = 0 && y % 100 ≠ 0) || y % 400 = 0

/-- Days in a month of a given year. -/
def daysInMonth (y m : Nat) : Nat :=
  if m = 2 then (if isLeap y then 29 else 28)
  else if m = 4 ∨ m = 6 ∨ m = 9 ∨ m = 11 then 30
  else 31

/-- The dates `datetime.date` accepts. -/
def validDate (d : PyDate) : Prop :=
  1 ≤ d.year ∧ d.year ≤ 9999 ∧ 1 ≤ d.month ∧ d.month ≤ 12 ∧
    1 ≤ d.day ∧ d.day ≤ daysInMonth d.year d.month

instance : DecidablePred validDate := fun d => by
  unfold validDate; infer_instance

/-- Zero code points of the Unicode decimal-digit runs (general category
Nd, Unicode 15.0, the version current CPython ships): each run is ten
consecutive code points whose digit values are the offsets 0-9.  The
digit class of the `_strptime` patterns is `\d` without `re.ASCII`, and
`int()` converts any of these digits, so `strptime` accepts them all. -/
def ndZeroPoints : List Nat :=
  [0x30,     -- ASCII
   0x660,    -- Arabic-Indic
   0x6F0,    -- Extended Arabic-Indic
   0x7C0,    -- NKo
   0x966,    -- Devanagari
   0x9E6,    -- Bengali
   0xA66,    -- Gurmukhi
   0xAE6,    -- Gujarati
   0xB66,    -- Oriya
   0xBE6,    -- Tamil
   0xC66,    -- Telugu
   0xCE6,    -- Kannada
   0xD66,    -- Malayalam
   0xDE6,    -- Sinhala Lith
   0xE50,    -- Thai
   0xED0,    -- Lao
   0xF20,    -- Tibetan
   0x1040,   -- Myanmar
   0x1090,   -- Myanmar Shan
   0x17E0,   -- Khmer
   0x1810,   -- Mongolian
   0x1946,   -- Limbu
   0x19D0,   -- New Tai Lue
   0x1A80,   -- Tai Tham Hora
   0x1A90,   -- Tai Tham Tham
   0x1B50,   -- Balinese
   0x1BB0,   -- Sundanese
   0x1C40,   -- Lepcha
   0x1C50,   -- Ol Chiki
   0xA620,   -- Vai
   0xA8D0,   -- Saurashtra
   0xA900,   -- Kayah Li
   0xA9D0,   -- Javanese
   0xA9F0,   -- Myanmar Tai Laing
   0xAA50,   -- Cham
   0xABF0,   -- Meetei Mayek
   0xFF10,   -- Fullwidth
   0x104A0,  -- Osmanya
   0x10D30,  -- Hanifi Rohingya
   0x11066,  -- Brahmi
   0x110F0,  -- Sora Sompeng
   0x11136,  -- Chakma
   0x111D0,  -- Sharada
   0x112F0,  -- Khudawadi
   0x11450,  -- Newa
   0x114D0,  -- Tirhuta
   0x11650,  -- Modi
   0x116C0,  -- Takri
   0x11730,  -- Ahom
   0x118E0,  -- Warang Citi
   0x11950,  -- Dives Akuru
   0x11C50,  -- Bhaiksuki
   0x11D50,  -- Masaram Gondi
   0x11DA0,  -- Gunjala Gondi
   0x11F50,  -- Kawi
   0x16A60,  -- Mro
   0x16AC0,  -- Tangsa
   0x16B50,  -- Pahawh Hmong
   0x1D7CE,  -- Mathematical Bold
   0x1D7D8,  -- Mathematical Double-Struck
   0x1D7E2,  -- Mathematical Sans-Serif
   0x1D7EC,  -- Mathematical Sans-Serif Bold
   0x1D7F6,  -- Mathematical Monospace
   0x1E140,  -- Nyiakeng Puachue Hmong
   0x1E2F0,  -- Wancho
   0x1E4F0,  -- Nag Mundari
   0x1E950,  -- Adlam
   0x1FBF0]  -- Segmented digits

/-- Digit value of a character, `none` when not a Unicode decimal digit:
the digit class the `_strptime` patterns match and `int()` converts
(category Nd; the value of a digit is its offset in its run of ten). -/
def digitVal (c : Char) : Option Nat :=
  (ndZeroPoints.find? fun b =>
      decide (b ≤ c.toNat) && decide (c.toNat ≤ b + 9)).map
    (fun b => c.toNat - b)

/-- An ASCII decimal digit, code points 48-57 (the digits
`format_iso_date` emits). -/
def isAsciiDigit (c : Char) : Bool :=
  decide (48 ≤ c.toNat) && decide (c.toNat ≤ 57)

/-- Accumulating left-to-right read of a digit string. -/
def digitsVal : List Char → Nat → Option Nat
  | [], acc => some acc
  | c :: cs, acc =>
    match digitVal c with
    | some v => digitsVal cs (10 * acc + v)
    | none => none

/-- The number denoted by a list of digit characters (most significant
first), `none` when the list is empty or holds a non-digit. -/
def digitsToNat (cs : List Char) : Option Nat :=
  match cs with
  | [] => none
  | _ => digitsVal cs 0

/-- Split a character list on `-`, as the `%Y-%m-%d` pattern does. -/
def splitDash : List Char → List (List Char)
  | [] => [[]]
  | c :: cs =>
    let rest := splitDash cs
    if c = '-' then [] :: rest
    else match rest with
      | [] => [[c]]
      | g :: gs => (c :: g) :: gs

/-- Rejoin what `splitDash` produced (used to relate a parsed string to
its groups). -/
def joinDash : List (List Char) → List Char
  | [] => []
  | [g] => g
  | g :: gs => g ++ '-' :: joinDash gs

/-- `parse_iso_date` (utils.py lines 5-6): strict `%Y-%m-%d` parse per
CPython `_strptime` — a four-digit year and one-or-two-digit month and
day, in any Unicode decimal digits (`digitVal`), whole-string match,
range validation — returning the parsed date, or `none` for the
`ValueError` that `strptime` raises otherwise. -/
def parse_iso_date (s : String) : Option PyDate :=
  match splitDash s.data with
  | [ys, ms, ds] =>
    if ys.length = 4 ∧ (ms.length = 1 ∨ ms.length = 2) ∧
        (ds.length = 1 ∨ ds.length = 2) then
      match digitsToNat ys, digitsToNat ms, digitsToNat ds with
      | some y, some m, some d =>
        if validDate ⟨y, m, d⟩ then some ⟨y, m, d⟩ else none
      | _, _, _ => none
    else none
  | _ => none

/-- The character for a digit value. -/
def digitChar (d : Nat) : Char := Char.ofNat (48 + d)

/-- Zero-filled fixed-width decimal rendering of `n` (its last `w`
digits; below `10 ^ w` this is the usual zero-padded form). -/
def padNat : Nat → Nat → List Char
  | 0, _ => []
  | w + 1, n => padNat w (n / 10) ++ [digitChar (n % 10)]

/-- `format_iso_date` (utils.py lines 9-10): `strftime("%Y-%m-%d")` with
zero-filled four-digit year and two-digit month and day. -/
def format_iso_date (d : PyDate) : String :=
  String.mk (padNat 4 d.year ++ '-' :: padNat 2 d.month ++ '-' :: padNat 2 d.day)

/-- The zero-padded ASCII form a date string can take: exactly the shape
`format_iso_date` emits — a four-ASCII-digit year, a dash, a
two-ASCII-digit month, a dash, a two-ASCII-digit day. -/
def asciiPadded (s : String) : Bool :=
  match splitDash s.data with
  | [ys, ms, ds] =>
    (ys.length == 4) && (ms.length == 2) && (ds.length == 2) &&
      ys.all isAsciiDigit && ms.all isAsciiDigit && ds.all isAsciiDigit
  | _ => false

/-! ## Theorems -/

/-- C1: the claim says that when the 10-second wait elapses before any of
the four signals fires, `connect` raises a `ConnectionFailed` domain
error.  Evaluating the embedded `_wait_for_session_start` on the failing
input (no event delivered before the deadline) shows that the raw
`asyncio.TimeoutError` of `asyncio.wait_for` propagates instead: the
outcome is `timeoutError` and is no `ConnectionFailed`, contradicting the
claim and the function's own docstring. -/
theorem timeout_is_not_connection_failed :
    (wait_for_session_start []).1 = WaitOutcome.timeoutError ∧
    ∀ msg : String, (wait_for_session_start []).1 ≠ WaitOutcome.connFailed msg :=
  ⟨rfl, fun _ h => WaitOutcome.noConfusion h⟩

/-- C4 counterexample: on the timeout interleaving (no event delivered
before the deadline) the outcome of the connect wait is neither an
established session nor a `ConnectionFailed` error, so the claimed
two-way outcome split fails as stated. -/
theorem wait_outcome_split_fails_on_timeout :
    ¬ ((wait_for_session_start []).1 = WaitOutcome.success ∨
       ∃ msg, (wait_for_session_start []).1 = WaitOutcome.connFailed msg) := by
  rintro (h | ⟨msg, h⟩) <;> exact WaitOutcome.noConfusion h

/-- C4 (amended): for every interleaving of the four session-start
signals and the timeout, the connect wait produces exactly one outcome —
an established session, a `ConnectionFailed` error, or, on the timeout
path, the raw timeout error — and on every exit path all four signal
listeners are deregistered, so a later signal is never delivered to a
stale listener. -/
theorem wait_one_outcome_and_deregistered (events : List XmppEvent) :
    ((wait_for_session_start events).1 = WaitOutcome.success ∨
     (∃ msg, (wait_for_session_start events).1 = WaitOutcome.connFailed msg) ∨
     (wait_for_session_start events).1 = WaitOutcome.timeoutError) ∧
    (wait_for_session_start events).2.registered = [] ∧
    ∀ e, dispatch (wait_for_session_start events).2 e =
      (wait_for_session_start events).2 := by
  refine ⟨?_, rfl, ?_⟩
  · cases h : (wait_for_session_start events).1 with
    | success => exact Or.inl rfl
    | connFailed msg => exact Or.inr (Or.inl ⟨msg, rfl⟩)
    | timeoutError => exact Or.inr (Or.inr rfl)
  · intro e
    have hreg : (wait_for_session_start events).2.registered = [] := rfl
    simp [dispatch, hreg]

/-- C2 counterexample: two session-loss signals delivered to a freshly
connected client, the second before the first reconnect loop completes,
leave two `__reconnect` loops in flight — the claimed at-most-one bound
fails as stated. -/
theorem second_disconnect_spawns_second_loop :
    (runClient [.deliverDisconnected, .deliverDisconnected]).reconnectLoops = 2 ∧
    ¬ (runClient [.deliverDisconnected, .deliverDisconnected]).reconnectLoops ≤ 1 := by
  constructor
  · rfl
  · have h : (runClient [.deliverDisconnected, .deliverDisconnected]).reconnectLoops
        = 2 := rfl
    omega

/-- C2 (amended): the client has no gate around reconnection — every
session-loss signal delivered while the `"disconnected"` handler is
registered starts one more `__reconnect` loop, whatever number of loops
is already in flight; in particular a second signal arriving before the
first reconnect completes does start a second concurrent loop. -/
theorem disconnected_signal_always_spawns_loop (st : ClientState)
    (h : "disconnected" ∈ st.handlersRegistered) :
    (stepClient st .deliverDisconnected).reconnectLoops = st.reconnectLoops + 1 := by
  simp [stepClient, h]

/-- Witness for the C2 amended theorem at the freshly constructed client. -/
theorem disconnected_signal_always_spawns_loop_witness :
    "disconnected" ∈ initClientState.handlersRegistered ∧
    (stepClient initClientState .deliverDisconnected).reconnectLoops =
      initClientState.reconnectLoops + 1 :=
  ⟨by decide, disconnected_signal_always_spawns_loop initClientState (by decide)⟩

/-- C9 counterexample: a caller-initiated `disconnect` followed by the
session-loss signal the transport emits on teardown leaves one reconnect
loop in flight — the claim that the client never starts a reconnection
attempt after an explicit disconnect fails as stated. -/
theorem reconnect_after_explicit_disconnect :
    (runClient [.callDisconnect, .deliverDisconnected]).disconnectCalled = true ∧
    (runClient [.callDisconnect, .deliverDisconnected]).reconnectLoops = 1 :=
  ⟨rfl, rfl⟩

/-- C9 (amended): `ClientAsync.disconnect` only tears the transport down —
it neither deregisters the `"disconnected"` handler nor records any state
that would suppress reconnection, so a session-loss signal delivered after
a caller-initiated disconnect starts a reconnect loop exactly as one
delivered while the session was established. -/
theorem disconnect_does_not_suppress_reconnect (st : ClientState) :
    (stepClient st .callDisconnect).handlersRegistered = st.handlersRegistered ∧
    (stepClient st .callDisconnect).reconnectLoops = st.reconnectLoops ∧
    ∀ e, (stepClient (stepClient st .callDisconnect) e).reconnectLoops =
      (stepClient st e).reconnectLoops := by
  refine ⟨rfl, rfl, ?_⟩
  intro e
  cases e <;> first
    | rfl
    | (simp only [stepClient]; split <;> rfl)

/-- C3: the claim says constructing the `Subscribe` and `Unsubscribe`
variants succeeds with command nodes `"subscribe"` and `"unsubscribe"`.
Evaluating the embedded construction shows that both raise `TypeError`:
the two classes are declared without the `CommandHandler` base, so their
`super().__init__(node=..., name=...)` call lands on `object.__init__`,
which rejects keyword arguments — while `GetHistoryHandler`, which does
inherit `CommandHandler`, constructs fine. -/
theorem subscribe_unsubscribe_construction_fails :
    constructSubscribe = ConstructResult.typeError ∧
    constructUnsubscribe = ConstructResult.typeError ∧
    constructGetHistoryHandler = ConstructResult.ok "get_history" "Get history" :=
  ⟨rfl, rfl, rfl⟩

/-- C5: the server-side command state machine is two-phase — an inbound
request with no payload leaves the session holding the rendered form as
payload and `handle_submit` as the `next` continuation; an inbound
request that already carries a payload goes directly to the submit phase
on the stored payload; and the submit phase leaves the session with
payload `[result_form, result_data]` and `next` empty (terminal). -/
theorem two_phase_command_flow {ρ : Type} (h : CommandHandler ρ)
    (s : CmdSession ρ) (p : SessionPayload ρ) :
    (handle_request h false s).payload =
      SessionPayload.requestForm ⟨"form", h.name, h.formFields⟩ ∧
    (handle_request h false s).next = some Continuation.handleSubmit ∧
    handle_request h true s = handle_submit h s.payload s ∧
    (handle_submit h p s).next = none ∧
    (handle_submit h p s).payload =
      SessionPayload.result ⟨"result", "Get history", h.resultFields s.requester p⟩
        (h.executeData s.requester p) :=
  ⟨rfl, rfl, rfl, rfl, rfl⟩

/-- C6: the error converters implement exactly the six listed pairs —
client side: `not-authorized` to `NotAuthorized`, `service-unavailable`
to `ServiceUnavailable`, `bad-request` to `BadRequest`, and
`undefined-condition` with an upstream-error element to `UpstreamError`
carrying issuer, code and message; server side: `PermissionError` to
`not-authorized` and `ValueError` to `bad-request` with modify type — and
every error outside these pairs, including `undefined-condition` without
an upstream-error element and any non-`IqError` exception, propagates
unchanged. -/
theorem error_mapping_exact_six_pairs :
    (∀ text up, clientExit (.iqError ⟨"not-authorized", text, up⟩) =
      .raisesDomain (.notAuthorized text)) ∧
    (∀ text up, clientExit (.iqError ⟨"service-unavailable", text, up⟩) =
      .raisesDomain (.serviceUnavailable text)) ∧
    (∀ text up, clientExit (.iqError ⟨"bad-request", text, up⟩) =
      .raisesDomain (.badRequest text)) ∧
    (∀ text issuer code,
      clientExit (.iqError ⟨"undefined-condition", text, some (issuer, code)⟩) =
        .raisesDomain (.upstreamError issuer code text)) ∧
    (∀ text, clientExit (.iqError ⟨"undefined-condition", text, none⟩) =
      .passthrough (.iqError ⟨"undefined-condition", text, none⟩)) ∧
    (∀ e : IqErr,
      e.condition ∉ ["not-authorized", "service-unavailable", "bad-request",
        "undefined-condition"] →
      clientExit (.iqError e) = .passthrough (.iqError e)) ∧
    (∀ tag, clientExit (.other tag) = .passthrough (.other tag)) ∧
    (∀ m, serverExit (.permissionError m) = .raisesXmpp ⟨"not-authorized", "cancel", m⟩) ∧
    (∀ m, serverExit (.valueError m) = .raisesXmpp ⟨"bad-request", "modify", m⟩) ∧
    (∀ tag, serverExit (.other tag) = .passthrough (.other tag)) := by
  refine ⟨fun text up => rfl, fun text up => rfl, fun text up => rfl,
    fun text issuer code => rfl, fun text => rfl, ?_, fun tag => rfl,
    fun m => rfl, fun m => rfl, fun tag => rfl⟩
  intro e h
  simp only [List.mem_cons, List.not_mem_nil, or_false, not_or] at h
  obtain ⟨h1, h2, h3, h4⟩ := h
  simp [clientExit, iqErrorConvert, h1, h2, h3, h4]

/-- Witness for the C6 theorem: an unmapped wire condition passes through
unchanged while a mapped one is converted. -/
theorem error_mapping_exact_six_pairs_witness :
    clientExit (.iqError ⟨"gone", "t", none⟩) =
      .passthrough (.iqError ⟨"gone", "t", none⟩) ∧
    clientExit (.iqError ⟨"not-authorized", "t", none⟩) =
      .raisesDomain (.notAuthorized "t") :=
  ⟨error_mapping_exact_six_pairs.2.2.2.2.2.1 ⟨"gone", "t", none⟩ (by decide),
   error_mapping_exact_six_pairs.1 "t" none⟩

/-- C7: a `get_history` call given a timezone-naive `start_time` or
`end_time` raises `ValueError` locally — no command element is built and
`iq.send()` is never reached — while a call whose supplied bounds are all
timezone-aware passes the check and hands a built request to the send. -/
theorem naive_datetime_rejected_locally (identifier : String)
    (start_time end_time : Option PyDatetime) :
    (((∃ t, start_time = some t ∧ t.tzAware = false) ∨
      (∃ t, end_time = some t ∧ t.tzAware = false)) →
      get_history identifier start_time end_time =
        Except.error "Naive datetimes are not handled to prevent errors") ∧
    ((∀ t ∈ start_time, t.tzAware = true) → (∀ t ∈ end_time, t.tzAware = true) →
      (get_history identifier start_time end_time).isOk = true) := by
  constructor
  · rintro (⟨t, rfl, ht⟩ | ⟨t, het, ht⟩)
    · simp [get_history, ht]
    · cases start_time with
      | none =>
        subst het
        simp [get_history, get_history.matchEnd, ht]
      | some st =>
        cases hst : st.tzAware with
        | false => simp [get_history, hst]
        | true =>
          subst het
          simp [get_history, get_history.matchEnd, hst, ht]
  · intro hs he
    cases start_time with
    | none =>
      cases end_time with
      | none => rfl
      | some et =>
        have het : et.tzAware = true := he et rfl
        simp only [get_history, get_history.matchEnd, het, Bool.not_true,
          Bool.false_eq_true, if_false]
        rfl
    | some st =>
      have hst : st.tzAware = true := hs st rfl
      cases end_time with
      | none =>
        simp only [get_history, get_history.matchEnd, hst, Bool.not_true,
          Bool.false_eq_true, if_false]
        rfl
      | some et =>
        have het : et.tzAware = true := he et rfl
        simp only [get_history, get_history.matchEnd, hst, het, Bool.not_true,
          Bool.false_eq_true, if_false]
        rfl

/-- Witness for the C7 theorem: a naive start bound is rejected with the
`ValueError` message before the request exists, an all-aware call builds
its request. -/
theorem naive_datetime_rejected_locally_witness :
    get_history "prm" (some ⟨"2024-01-01T00:00:00", false⟩) none =
      Except.error "Naive datetimes are not handled to prevent errors" ∧
    (get_history "prm" (some ⟨"S", true⟩) (some ⟨"E", true⟩)).isOk = true :=
  ⟨(naive_datetime_rejected_locally "prm" (some ⟨"2024-01-01T00:00:00", false⟩)
      none).1 (Or.inl ⟨_, rfl, rfl⟩),
   (naive_datetime_rejected_locally "prm" (some ⟨"S", true⟩)
      (some ⟨"E", true⟩)).2 (by simp) (by simp)⟩

/-- C8: when `start_time` (respectively `end_time`) is not supplied, the
built request contains no `start_time` (respectively `end_time`) field
element at all, while the `identifier` field is always present. -/
theorem omitted_bounds_leave_no_field (identifier : String)
    (start_time end_time : Option PyDatetime) (r : HistoryRequest)
    (h : get_history identifier start_time end_time = Except.ok r) :
    (start_time = none → ∀ f ∈ r.fields, f.var ≠ "start_time") ∧
    (end_time = none → ∀ f ∈ r.fields, f.var ≠ "end_time") ∧
    ∃ f ∈ r.fields, f.var = "identifier" := by
  cases start_time with
  | none =>
    cases end_time with
    | none =>
      simp only [get_history, get_history.matchEnd, Except.ok.injEq] at h
      subst h
      refine ⟨?_, ?_, ⟨"identifier", xmlEscape identifier⟩, by simp, rfl⟩
      · rintro - f hf
        simp only [List.mem_cons, List.not_mem_nil, or_false] at hf
        subst hf
        show "identifier" ≠ "start_time"
        decide
      · rintro - f hf
        simp only [List.mem_cons, List.not_mem_nil, or_false] at hf
        subst hf
        show "identifier" ≠ "end_time"
        decide
    | some et =>
      cases het : et.tzAware with
      | false => simp [get_history, get_history.matchEnd, het] at h
      | true =>
        simp only [get_history, get_history.matchEnd, het, Bool.not_true,
          Bool.false_eq_true, if_false, Except.ok.injEq] at h
        subst h
        refine ⟨?_, fun hc => Option.noConfusion hc,
          ⟨"identifier", xmlEscape identifier⟩, by simp, rfl⟩
        rintro - f hf
        simp only [List.cons_append, List.nil_append, List.append_nil,
          List.mem_cons, List.not_mem_nil, or_false] at hf
        rcases hf with rfl | rfl
        · show "identifier" ≠ "start_time"
          decide
        · show "end_time" ≠ "start_time"
          decide
  | some st =>
    cases hst : st.tzAware with
    | false => simp [get_history, hst] at h
    | true =>
      cases end_time with
      | none =>
        simp only [get_history, get_history.matchEnd, hst, Bool.not_true,
          Bool.false_eq_true, if_false, Except.ok.injEq] at h
        subst h
        refine ⟨fun hc => Option.noConfusion hc, ?_,
          ⟨"identifier", xmlEscape identifier⟩, by simp, rfl⟩
        rintro - f hf
        simp only [List.cons_append, List.nil_append, List.append_nil,
          List.mem_cons, List.not_mem_nil, or_false] at hf
        rcases hf with rfl | rfl
        · show "identifier" ≠ "end_time"
          decide
        · show "start_time" ≠ "end_time"
          decide
      | some et =>
        cases het : et.tzAware with
        | false => simp [get_history, get_history.matchEnd, hst, het] at h
        | true =>
          simp only [get_history, get_history.matchEnd, hst, het, Bool.not_true,
            Bool.false_eq_true, if_false, Except.ok.injEq] at h
          subst h
          refine ⟨fun hc => Option.noConfusion hc, fun hc => Option.noConfusion hc,
            ⟨"identifier", xmlEscape identifier⟩, by simp, rfl⟩

/-- Witness for the C8 theorem: with both bounds omitted the request
holds the identifier field and nothing named `start_time` or
`end_time`. -/
theorem omitted_bounds_leave_no_field_witness :
    (∀ f ∈ (HistoryRequest.mk [⟨"identifier", xmlEscape "prm"⟩]).fields,
      f.var ≠ "start_time") ∧
    ∃ f ∈ (HistoryRequest.mk [⟨"identifier", xmlEscape "prm"⟩]).fields,
      f.var = "identifier" :=
  ⟨(omitted_bounds_leave_no_field "prm" none none
      ⟨[⟨"identifier", xmlEscape "prm"⟩]⟩ rfl).1 rfl,
   (omitted_bounds_leave_no_field "prm" none none
      ⟨[⟨"identifier", xmlEscape "prm"⟩]⟩ rfl).2.2⟩

/-! ### Helper lemmas for the ISO date round trip -/

theorem digitVal_lt (c : Char) (v : Nat) (h : digitVal c = some v) : v < 10 := by
  unfold digitVal at h
  rw [Option.map_eq_some'] at h
  obtain ⟨b, hfind, hv⟩ := h
  have hp := List.find?_some hfind
  simp only [Bool.and_eq_true, decide_eq_true_eq] at hp
  omega

theorem digitVal_ascii (c : Char) (h1 : 48 ≤ c.toNat) (h2 : c.toNat ≤ 57) :
    digitVal c = some (c.toNat - 48) := by
  unfold digitVal ndZeroPoints
  rw [List.find?_cons_of_pos]
  · rfl
  · simp only [Bool.and_eq_true, decide_eq_true_eq]
    omega

theorem eq_digitChar_of_digitVal_ascii (c : Char) (v : Nat)
    (h1 : 48 ≤ c.toNat) (h2 : c.toNat ≤ 57) (h : digitVal c = some v) :
    c = digitChar v := by
  rw [digitVal_ascii c h1 h2] at h
  injection h with h
  subst h
  unfold digitChar
  have h48 : 48 + (c.toNat - 48) = c.toNat := by omega
  rw [h48]
  exact (Char.ofNat_toNat c).symm

theorem digitVal_digitChar (d : Nat) (hd : d < 10) :
    digitVal (digitChar d) = some d := by
  interval_cases d <;> decide

theorem isAsciiDigit_digitChar (d : Nat) (hd : d < 10) :
    isAsciiDigit (digitChar d) = true := by
  interval_cases d <;> decide

theorem digitChar_ne_dash (d : Nat) (hd : d < 10) : digitChar d ≠ '-' := by
  interval_cases d <;> decide

theorem padNat_length (w n : Nat) : (padNat w n).length = w := by
  induction w generalizing n with
  | zero => rfl
  | succ w ih => simp [padNat, ih]

theorem mem_padNat_ne_dash (w n : Nat) (c : Char) (hc : c ∈ padNat w n) :
    c ≠ '-' := by
  induction w generalizing n with
  | zero => simp [padNat] at hc
  | succ w ih =>
    simp only [padNat, List.mem_append, List.mem_cons, List.not_mem_nil,
      or_false] at hc
    rcases hc with hc | rfl
    · exact ih (n / 10) hc
    · exact digitChar_ne_dash (n % 10) (Nat.mod_lt n (by norm_num))

theorem mem_padNat_isAsciiDigit (w n : Nat) (c : Char) (hc : c ∈ padNat w n) :
    isAsciiDigit c = true := by
  induction w generalizing n with
  | zero => simp [padNat] at hc
  | succ w ih =>
    simp only [padNat, List.mem_append, List.mem_cons, List.not_mem_nil,
      or_false] at hc
    rcases hc with hc | rfl
    · exact ih (n / 10) hc
    · exact isAsciiDigit_digitChar (n % 10) (Nat.mod_lt n (by norm_num))

theorem digitsVal_append (xs ys : List Char) (acc : Nat) :
    digitsVal (xs ++ ys) acc =
      match digitsVal xs acc with
      | some a => digitsVal ys a
      | none => none := by
  induction xs generalizing acc with
  | nil => rfl
  | cons c xs ih =>
    simp only [List.cons_append, digitsVal]
    cases digitVal c with
    | none => rfl
    | some v => exact ih (10 * acc + v)

theorem digitsVal_padNat (w n acc : Nat) (h : n < 10 ^ w) :
    digitsVal (padNat w n) acc = some (acc * 10 ^ w + n) := by
  induction w generalizing n acc with
  | zero =>
    have hn : n = 0 := by simpa using h
    subst hn
    simp [padNat, digitsVal]
  | succ w ih =>
    have hdiv : n / 10 < 10 ^ w := by
      have hp : 10 ^ (w + 1) = 10 * 10 ^ w := pow_succ' 10 w
      rw [hp] at h
      exact Nat.div_lt_of_lt_mul h
    rw [padNat, digitsVal_append, ih (n / 10) acc hdiv]
    have hmod : n % 10 < 10 := Nat.mod_lt n (by norm_num)
    simp only [digitsVal, digitVal_digitChar (n % 10) hmod]
    have hdm := Nat.div_add_mod n 10
    have hp : 10 ^ (w + 1) = 10 ^ w * 10 := pow_succ 10 w
    congr 1
    rw [hp]
    nlinarith [hdm]

theorem digitsToNat_cons (c : Char) (cs : List Char) :
    digitsToNat (c :: cs) = digitsVal (c :: cs) 0 := rfl

theorem digitsVal_acc (cs : List Char) (acc : Nat) :
    digitsVal cs acc =
      (digitsVal cs 0).map (fun v => acc * 10 ^ cs.length + v) := by
  induction cs generalizing acc with
  | nil => simp [digitsVal]
  | cons c cs ih =>
    cases hdv : digitVal c with
    | none => simp [digitsVal, hdv]
    | some v =>
      simp only [digitsVal, hdv]
      rw [ih (10 * acc + v), ih (10 * 0 + v)]
      cases digitsVal cs 0 with
      | none => rfl
      | some a =>
        simp only [Option.map_some', Option.some.injEq, List.length_cons]
        have hp : 10 ^ (cs.length + 1) = 10 ^ cs.length * 10 := pow_succ 10 cs.length
        rw [hp]
        ring

theorem digitsVal_lt_pow (cs : List Char) (n : Nat) (h : digitsVal cs 0 = some n) :
    n < 10 ^ cs.length := by
  induction cs generalizing n with
  | nil =>
    simp only [digitsVal, Option.some.injEq] at h
    subst h
    simp
  | cons c cs ih =>
    cases hdv : digitVal c with
    | none => simp [digitsVal, hdv] at h
    | some v =>
      simp only [digitsVal, hdv] at h
      rw [digitsVal_acc] at h
      cases hcs : digitsVal cs 0 with
      | none => rw [hcs] at h; exact Option.noConfusion h
      | some a =>
        rw [hcs] at h
        simp only [Option.map_some', Option.some.injEq] at h
        subst h
        have hv : v < 10 := digitVal_lt c v hdv
        have ha : a < 10 ^ cs.length := ih a hcs
        have hp : 10 ^ (cs.length + 1) = 10 ^ cs.length * 10 := pow_succ 10 cs.length
        simp only [List.length_cons, hp]
        calc (10 * 0 + v) * 10 ^ cs.length + a
            < (10 * 0 + v) * 10 ^ cs.length + 10 ^ cs.length := by omega
          _ = (v + 1) * 10 ^ cs.length := by ring
          _ ≤ 10 * 10 ^ cs.length := by
              exact Nat.mul_le_mul_right _ (by omega)
          _ = 10 ^ cs.length * 10 := by ring

theorem padNat_digitsVal (cs : List Char) (n : Nat)
    (hA : ∀ c ∈ cs, isAsciiDigit c = true)
    (h : digitsVal cs 0 = some n) : padNat cs.length n = cs := by
  induction cs using List.reverseRecOn generalizing n with
  | nil =>
    simp only [digitsVal, Option.some.injEq] at h
    subst h
    rfl
  | append_singleton xs c ih =>
    have hxsA : ∀ x ∈ xs, isAsciiDigit x = true :=
      fun x hx => hA x (List.mem_append_left [c] hx)
    have hcA : isAsciiDigit c = true := hA c (by simp)
    simp only [isAsciiDigit, Bool.and_eq_true, decide_eq_true_eq] at hcA
    rw [digitsVal_append] at h
    cases hxs : digitsVal xs 0 with
    | none => rw [hxs] at h; exact Option.noConfusion h
    | some a =>
      rw [hxs] at h
      simp only [digitsVal] at h
      cases hdv : digitVal c with
      | none => rw [hdv] at h; exact Option.noConfusion h
      | some v =>
        rw [hdv] at h
        injection h with h
        subst h
        have hv : v < 10 := digitVal_lt c v hdv
        have hlen : (xs ++ [c]).length = xs.length + 1 := by simp
        rw [hlen, padNat]
        have hdiv : (10 * a + v) / 10 = a := by omega
        have hmod : (10 * a + v) % 10 = v := by omega
        rw [hdiv, hmod, ih a hxsA hxs,
          ← eq_digitChar_of_digitVal_ascii c v hcA.1 hcA.2 hdv]

theorem splitDash_no_dash (a : List Char) (h : ∀ c ∈ a, c ≠ '-') :
    splitDash a = [a] := by
  induction a with
  | nil => rfl
  | cons c a ih =>
    have hc : c ≠ '-' := h c (List.mem_cons_self c a)
    have ha : ∀ x ∈ a, x ≠ '-' := fun x hx => h x (List.mem_cons_of_mem c hx)
    simp only [splitDash, if_neg hc, ih ha]

theorem splitDash_append (a b : List Char) (h : ∀ c ∈ a, c ≠ '-') :
    splitDash (a ++ '-' :: b) = a :: splitDash b := by
  induction a with
  | nil => simp [splitDash]
  | cons c a ih =>
    have hc : c ≠ '-' := h c (List.mem_cons_self c a)
    have ha : ∀ x ∈ a, x ≠ '-' := fun x hx => h x (List.mem_cons_of_mem c hx)
    simp only [List.cons_append, splitDash, if_neg hc, List.append_eq]
    rw [ih ha]

theorem splitDash_ne_nil (cs : List Char) : splitDash cs ≠ [] := by
  cases cs with
  | nil => simp [splitDash]
  | cons c cs =>
    unfold splitDash
    split
    · simp
    · cases splitDash cs <;> simp

theorem joinDash_splitDash (cs : List Char) : joinDash (splitDash cs) = cs := by
  induction cs with
  | nil => rfl
  | cons c cs ih =>
    unfold splitDash
    by_cases hc : c = '-'
    · subst hc
      rw [if_pos rfl]
      cases hl : splitDash cs with
      | nil => exact absurd hl (splitDash_ne_nil cs)
      | cons g gs =>
        show [] ++ '-' :: joinDash (g :: gs) = '-' :: cs
        rw [← hl, ih]
        rfl
    · rw [if_neg hc]
      cases hl : splitDash cs with
      | nil => exact absurd hl (splitDash_ne_nil cs)
      | cons g gs =>
        cases gs with
        | nil =>
          show c :: g = c :: cs
          have hg : joinDash [g] = cs := by rw [← hl]; exact ih
          simp only [joinDash] at hg
          rw [hg]
        | cons g2 gs2 =>
          show (c :: g) ++ '-' :: joinDash (g2 :: gs2) = c :: cs
          have hstep : joinDash (g :: g2 :: gs2) =
              g ++ '-' :: joinDash (g2 :: gs2) := rfl
          have hg : joinDash (g :: g2 :: gs2) = cs := by rw [← hl]; exact ih
          rw [List.cons_append, ← hstep, hg]

theorem daysInMonth_le_31 (y m : Nat) : daysInMonth y m ≤ 31 := by
  unfold daysInMonth
  split
  · split <;> omega
  · split <;> omega

theorem parse_format (d : PyDate) (hd : validDate d) :
    parse_iso_date (format_iso_date d) = some d := by
  obtain ⟨y, m, dd⟩ := d
  unfold validDate at hd
  simp only at hd
  obtain ⟨h1, h2, h3, h4, h5, h6⟩ := hd
  have hy : y < 10 ^ 4 := by norm_num; omega
  have hm : m < 10 ^ 2 := by norm_num; omega
  have hdd : dd < 10 ^ 2 := by
    have h31 := daysInMonth_le_31 y m
    norm_num
    omega
  have hdata : (format_iso_date ⟨y, m, dd⟩).data =
      padNat 4 y ++ '-' :: (padNat 2 m ++ '-' :: padNat 2 dd) := rfl
  unfold parse_iso_date
  rw [hdata, splitDash_append _ _ (fun c hc => mem_padNat_ne_dash 4 y c hc),
    splitDash_append _ _ (fun c hc => mem_padNat_ne_dash 2 m c hc),
    splitDash_no_dash _ (fun c hc => mem_padNat_ne_dash 2 dd c hc)]
  dsimp only
  have hly : (padNat 4 y).length = 4 := padNat_length 4 y
  have hlm : (padNat 2 m).length = 2 := padNat_length 2 m
  have hld : (padNat 2 dd).length = 2 := padNat_length 2 dd
  have hcond : (padNat 4 y).length = 4 ∧
      ((padNat 2 m).length = 1 ∨ (padNat 2 m).length = 2) ∧
      ((padNat 2 dd).length = 1 ∨ (padNat 2 dd).length = 2) := by
    exact ⟨hly, Or.inr hlm, Or.inr hld⟩
  rw [if_pos hcond]
  have hny : padNat 4 y ≠ [] := by
    intro hnil
    rw [hnil] at hly
    exact absurd hly (by decide)
  have hnm : padNat 2 m ≠ [] := by
    intro hnil
    rw [hnil] at hlm
    exact absurd hlm (by decide)
  have hnd : padNat 2 dd ≠ [] := by
    intro hnil
    rw [hnil] at hld
    exact absurd hld (by decide)
  obtain ⟨cy, csy, hey⟩ := List.exists_cons_of_ne_nil hny
  obtain ⟨cm, csm, hem⟩ := List.exists_cons_of_ne_nil hnm
  obtain ⟨cd, csd, hed⟩ := List.exists_cons_of_ne_nil hnd
  have hvy : digitsToNat (padNat 4 y) = some y := by
    rw [hey, digitsToNat_cons, ← hey, digitsVal_padNat 4 y 0 hy]
    simp
  have hvm : digitsToNat (padNat 2 m) = some m := by
    rw [hem, digitsToNat_cons, ← hem, digitsVal_padNat 2 m 0 hm]
    simp
  have hvd : digitsToNat (padNat 2 dd) = some dd := by
    rw [hed, digitsToNat_cons, ← hed, digitsVal_padNat 2 dd 0 hdd]
    simp
  rw [hvy, hvm, hvd]
  dsimp only
  have hvalid : validDate ⟨y, m, dd⟩ := ⟨h1, h2, h3, h4, h5, h6⟩
  rw [if_pos hvalid]

theorem format_parse (s : String) (d : PyDate)
    (hp : parse_iso_date s = some d) (hpad : asciiPadded s = true) :
    format_iso_date d = s := by
  obtain ⟨y, m, dd⟩ := d
  unfold parse_iso_date at hp
  split at hp
  case h_2 => exact Option.noConfusion hp
  case h_1 ys ms ds heq =>
    unfold asciiPadded at hpad
    rw [heq] at hpad
    simp only [Bool.and_eq_true, beq_iff_eq, List.all_eq_true] at hpad
    obtain ⟨⟨⟨⟨⟨hly4, hlm2⟩, hld2⟩, hysA⟩, hmsA⟩, hdsA⟩ := hpad
    split at hp
    case isFalse => exact Option.noConfusion hp
    case isTrue hlen =>
      obtain ⟨hly, hlm, hld⟩ := hlen
      split at hp
      case h_2 ha hb hc =>
        exact Option.noConfusion hp
      case h_1 yv mv dv hyv hmv hdv =>
        split at hp
        case isFalse => exact Option.noConfusion hp
        case isTrue hvalid =>
          injection hp with hp
          injection hp with hy2 hm2 hd2
          have hy2s : y = yv := hy2.symm
          have hm2s : m = mv := hm2.symm
          have hd2s : dd = dv := hd2.symm
          subst hy2s
          subst hm2s
          subst hd2s
          have hjoin : s.data = ys ++ '-' :: joinDash [ms, ds] := by
            rw [← joinDash_splitDash s.data, heq]
            rfl
          have hjoin2 : joinDash [ms, ds] = ms ++ '-' :: ds := rfl
          have hysne : ys ≠ [] := by
            intro hnil
            rw [hnil] at hly
            exact absurd hly (by decide)
          have hmsne : ms ≠ [] := by
            intro hnil
            rw [hnil] at hlm2
            exact absurd hlm2 (by decide)
          have hdsne : ds ≠ [] := by
            intro hnil
            rw [hnil] at hld2
            exact absurd hld2 (by decide)
          have hyv2 : digitsVal ys 0 = some y := by
            obtain ⟨c, cs, he⟩ := List.exists_cons_of_ne_nil hysne
            rw [he] at hyv ⊢
            rw [digitsToNat_cons] at hyv
            exact hyv
          have hmv2 : digitsVal ms 0 = some m := by
            obtain ⟨c, cs, he⟩ := List.exists_cons_of_ne_nil hmsne
            rw [he] at hmv ⊢
            rw [digitsToNat_cons] at hmv
            exact hmv
          have hdv2 : digitsVal ds 0 = some dd := by
            obtain ⟨c, cs, he⟩ := List.exists_cons_of_ne_nil hdsne
            rw [he] at hdv ⊢
            rw [digitsToNat_cons] at hdv
            exact hdv
          have hpy : padNat 4 y = ys := by
            rw [← hly]
            exact padNat_digitsVal ys y hysA hyv2
          have hpm : padNat 2 m = ms := by
            rw [← hlm2]
            exact padNat_digitsVal ms m hmsA hmv2
          have hpd : padNat 2 dd = ds := by
            rw [← hld2]
            exact padNat_digitsVal ds dd hdsA hdv2
          have hfmt : format_iso_date ⟨y, m, dd⟩ =
              String.mk (ys ++ '-' :: (ms ++ '-' :: ds)) := by
            unfold format_iso_date
            rw [hpy, hpm, hpd]
            simp [List.append_assoc]
          rw [hfmt]
          have hdata : s.data = ys ++ '-' :: (ms ++ '-' :: ds) := by
            rw [hjoin, hjoin2]
          rw [← hdata]

theorem format_asciiPadded (d : PyDate) :
    asciiPadded (format_iso_date d) = true := by
  obtain ⟨y, m, dd⟩ := d
  unfold asciiPadded
  have hdata : (format_iso_date ⟨y, m, dd⟩).data =
      padNat 4 y ++ '-' :: (padNat 2 m ++ '-' :: padNat 2 dd) := rfl
  rw [hdata, splitDash_append _ _ (fun c hc => mem_padNat_ne_dash 4 y c hc),
    splitDash_append _ _ (fun c hc => mem_padNat_ne_dash 2 m c hc),
    splitDash_no_dash _ (fun c hc => mem_padNat_ne_dash 2 dd c hc)]
  dsimp only
  simp only [Bool.and_eq_true, beq_iff_eq, List.all_eq_true, padNat_length]
  refine ⟨⟨⟨⟨⟨trivial, trivial⟩, trivial⟩, ?_⟩, ?_⟩, ?_⟩
  · exact fun c hc => mem_padNat_isAsciiDigit 4 y c hc
  · exact fun c hc => mem_padNat_isAsciiDigit 2 m c hc
  · exact fun c hc => mem_padNat_isAsciiDigit 2 dd c hc

end Quoalise
